import Mathlib

/-!
Verification of the zimbra-qbo-billing core against its specification.

Shallow embedding of the Python sources:
  * `src/qbo/errors.py`        — error taxonomy, classifier, retry wrapper
  * `src/zimbra/calculator.py` — monthly high-water aggregator
  * `src/reconciliation/detector.py`, `src/reconciliation/mapper.py`
  * `src/database/queries.py`, `src/database/models.py`
  * `src/qbo/invoice.py`       — invoice generation over the `invoice_history`
    schema (whose declared columns are transcribed below)

Conventions of the embedding:
  * Python `int` is `Int`; Python `float` parameters that only feed
    comparisons are `ℚ` (exact arithmetic in place of IEEE doubles).
  * Python exceptions are modelled by `Option`/`Except`; an attribute
    error on a missing row is `none`.
  * External collaborators (`fnmatch.fnmatch`) are parameters of the
    model, exactly as the spec treats them as collaborators at the
    interface boundary.
  * SQLAlchemy tables are lists of rows in insertion order; `query(...).first()`
    is `List.find?`; `session.add` appends. Timestamp/audit columns that no
    claim reads (`created_at`, `calculated_at`, …) are omitted.
-/

namespace ZQB

/-- Python `str.lower()` (ASCII case fold, which is all the sources use);
written on the character list so the kernel can evaluate it. -/
def toLowerStr (s : String) : String := ⟨s.data.map Char.toLower⟩

/-- Python `needle in hay` on strings: substring containment. -/
def strContains (hay needle : String) : Bool :=
  hay.toList.tails.any (fun t => needle.toList.isPrefixOf t)

/-- Python `s.endswith(suffix)`. -/
def strEndsWith (s suffixStr : String) : Bool :=
  suffixStr.toList.isSuffixOf s.toList

/-! ## `src/qbo/errors.py` — error taxonomy -/

/-- Which `QBOError` subclass an exception was classified into. -/
inductive QBOErrKind where
  | rateLimit
  | auth
  | validation
  | notFound
  | server (statusCode : Option Int)
  | network
  | generic
deriving DecidableEq, Repr

/-- A classified `QBOError`: its subclass, message, the failed operation and
the original exception (modelled by its message string), plus the
`retry_after` field of `QBORateLimitError` (the classifier always constructs
it with `retry_after=None`, hence `60`). -/
structure QBOErrorM where
  kind : QBOErrKind
  message : String
  operation : Option String
  originalError : Option String
  retryAfter : Int := 60
deriving DecidableEq, Repr

/-- Embeds `QBOError.is_retryable` as overridden by each subclass. -/
def QBOErrorM.isRetryable (e : QBOErrorM) : Bool :=
  match e.kind with
  | .rateLimit => true
  | .server _ => true
  | .network => true
  | _ => false

/-- Embeds `classify_qbo_error(error, operation)`: substring tests on the lowercased
message, in source order (rate limit, auth, validation, not found, 5xx,
network, generic fallback). -/
def classify_qbo_error (errMsg : String) (operation : Option String) : QBOErrorM :=
  let s := toLowerStr errMsg
  if strContains s "429" || strContains s "rate limit" || strContains s "too many requests" then
    { kind := .rateLimit, message := "QuickBooks API rate limit exceeded",
      operation := operation, originalError := some errMsg, retryAfter := 60 }
  else if strContains s "401" || strContains s "403" || strContains s "unauthorized"
      || strContains s "forbidden" then
    { kind := .auth, message := "QuickBooks authentication failed",
      operation := operation, originalError := some errMsg }
  else if strContains s "400" || strContains s "validation" || strContains s "invalid" then
    { kind := .validation, message := "QuickBooks validation error",
      operation := operation, originalError := some errMsg }
  else if strContains s "404" || strContains s "not found" then
    { kind := .notFound, message := "QuickBooks resource not found",
      operation := operation, originalError := some errMsg }
  else if strContains s "500" || strContains s "502" || strContains s "503"
      || strContains s "504" then
    let statusCode : Option Int :=
      if strContains s "500" then some 500
      else if strContains s "502" then some 502
      else if strContains s "503" then some 503
      else if strContains s "504" then some 504
      else none
    { kind := .server statusCode,
      message := "QuickBooks server error",
      operation := operation, originalError := some errMsg }
  else if strContains s "connection" || strContains s "timeout" || strContains s "network"
      || strContains s "unreachable" then
    { kind := .network, message := "Network error communicating with QuickBooks",
      operation := operation, originalError := some errMsg }
  else
    { kind := .generic, message := errMsg,
      operation := operation, originalError := some errMsg }

/-! ## `src/qbo/errors.py` — `retry_with_backoff` -/

/-- The keyword arguments of `retry_with_backoff` (Python floats as `ℚ`). -/
structure RetryConfig where
  maxRetries : Nat := 3
  initialDelay : ℚ := 1
  maxDelay : ℚ := 60
  exponentialBase : ℚ := 2
  jitter : Bool := true

/-- Outcome of one run of the wrapped decorated function:
the classified error raised (or `none` on success), the sequence of
`time.sleep` durations performed, and how many times the wrapped
operation was invoked. -/
structure RetryResult where
  raised : Option QBOErrorM
  sleeps : List ℚ
  calls : Nat
deriving Repr

/-- The delay computed for a failed `attempt` before jitter:
the server-provided `retry_after` for a rate-limit error, otherwise
`min(initial_delay * exponential_base ** attempt, max_delay)`. -/
def baseDelay (cfg : RetryConfig) (e : QBOErrorM) (attempt : Nat) : ℚ :=
  if e.kind = .rateLimit then (e.retryAfter : ℚ)
  else min (cfg.initialDelay * cfg.exponentialBase ^ attempt) cfg.maxDelay

/-- Jitter application: `delay * (0.5 + random.random())` when enabled,
with the random draw for each attempt supplied by `jitters`. -/
def jitterDelay (cfg : RetryConfig) (jitters : Nat → ℚ) (attempt : Nat) (d : ℚ) : ℚ :=
  if cfg.jitter then d * (1/2 + jitters attempt) else d

/-- The `for attempt in range(max_retries + 1)` loop of `wrapper`.
`outcomes a` is the behaviour of the wrapped function on invocation
number `a` (`none` = returns, `some m` = raises an exception whose
`str` is `m`); `fuel` is the number of loop iterations left. -/
def retryLoop (cfg : RetryConfig) (op : Option String) (outcomes : Nat → Option String)
    (jitters : Nat → ℚ) : Nat → Nat → RetryResult
  | _, 0 =>
    -- unreachable for fuel = maxRetries + 1: the final iteration returns or raises
    { raised := some (classify_qbo_error "Unexpected error in retry logic" op),
      sleeps := [], calls := 0 }
  | attempt, fuel + 1 =>
    match outcomes attempt with
    | none => { raised := none, sleeps := [], calls := 1 }
    | some m =>
      let e := classify_qbo_error m op
      if ¬ e.isRetryable then { raised := some e, sleeps := [], calls := 1 }
      else if cfg.maxRetries ≤ attempt then { raised := some e, sleeps := [], calls := 1 }
      else
        let d := jitterDelay cfg jitters attempt (baseDelay cfg e attempt)
        let rest := retryLoop cfg op outcomes jitters (attempt + 1) fuel
        { raised := rest.raised, sleeps := d :: rest.sleeps, calls := rest.calls + 1 }

/-- Embeds `retry_with_backoff(cfg)(func)(...)`: run the loop from attempt 0 with
`max_retries + 1` iterations available. -/
def retry_with_backoff (cfg : RetryConfig) (op : Option String)
    (outcomes : Nat → Option String) (jitters : Nat → ℚ) : RetryResult :=
  retryLoop cfg op outcomes jitters 0 (cfg.maxRetries + 1)

/-! ## `src/zimbra/calculator.py` — `HighwaterCalculator.calculate_monthly_highwater` -/

/-- One parsed report record (`{'domain', 'cos_usage', 'report_date'}`).
`domain` and `report_date` may be absent/None (`dict.get`); `cos_usage` is a
Python dict iterated in insertion order, hence an association list.
Report datetimes are opaque; we number them with `Nat`. -/
structure UsageRecord where
  domain : Option String
  cos_usage : List (String × Int)
  report_date : Option Nat
deriving DecidableEq, Repr

/-- The per-key value built by the calculator: the running `'count'`, the
`'dates'` list (in append order), and the `'peak_date'` entry, which is only
present once a strictly larger count has been seen (`none` = key absent). -/
structure HWEntry where
  count : Int
  dates : List (Option Nat)
  peak_date : Option (Option Nat)
deriving DecidableEq, Repr

/-- Embeds `defaultdict(lambda: {'count': 0, 'dates': []})` default value. -/
def emptyEntry : HWEntry := { count := 0, dates := [], peak_date := none }

/-- Lookup in the insertion-ordered dictionary. -/
def lookupEntry (m : List ((String × String) × HWEntry)) (k : String × String) :
    Option HWEntry :=
  (m.find? (fun p => p.1 = k)).map (·.2)

/-- Mutating `highwater_data[key]` on a `defaultdict`: update the entry in
place if the key exists, otherwise materialise the default and append. -/
def upsertEntry (k : String × String) (f : HWEntry → HWEntry) :
    List ((String × String) × HWEntry) → List ((String × String) × HWEntry)
  | [] => [(k, f emptyEntry)]
  | (k', v) :: rest =>
    if k' = k then (k', f v) :: rest else (k', v) :: upsertEntry k f rest

/-- The loop body for one `(cos_name, count)` item of a record: append the
report date to `'dates'`, and on a strictly larger count update `'count'`
and set `'peak_date'`. -/
def applyEvent (rd : Option Nat) (count : Int) (e : HWEntry) : HWEntry :=
  let e := { e with dates := e.dates ++ [rd] }
  if count > e.count then { e with count := count, peak_date := some rd } else e

/-- Processing one parsed record: skipped when `domain` is falsy
(`None` or `''`), otherwise each `cos_usage` item is folded in. -/
def processReport (acc : List ((String × String) × HWEntry)) (r : UsageRecord) :
    List ((String × String) × HWEntry) :=
  match r.domain with
  | none => acc
  | some d =>
    if d = "" then acc
    else r.cos_usage.foldl
      (fun acc p => upsertEntry (d, p.1) (applyEvent r.report_date p.2) acc) acc

/-- Embeds `HighwaterCalculator.calculate_monthly_highwater(parsed_reports)`. -/
def calculate_monthly_highwater (parsed_reports : List UsageRecord) :
    List ((String × String) × HWEntry) :=
  parsed_reports.foldl processReport []

/-- The stream of `(count, report_date)` updates a fixed `(domain, cos)` key
receives from one record, in processing order. -/
def reportEvents (k : String × String) (r : UsageRecord) : List (Int × Option Nat) :=
  match r.domain with
  | none => []
  | some d =>
    if d = "" then []
    else if d = k.1 then
      (r.cos_usage.filter (fun p => p.1 = k.2)).map (fun p => (p.2, r.report_date))
    else []

/-- All updates a key receives from a report list, in processing order. -/
def keyEvents (k : String × String) (l : List UsageRecord) : List (Int × Option Nat) :=
  l.flatMap (reportEvents k)

/-- The counts observed for a key across the input (what the spec calls the
counts "observed for that pair in the period"). -/
def observedCounts (k : String × String) (l : List UsageRecord) : List Int :=
  (keyEvents k l).map Prod.fst

/-- Folding a stream of updates into an entry. -/
def applyEvents (e : HWEntry) (evs : List (Int × Option Nat)) : HWEntry :=
  evs.foldl (fun e ev => applyEvent ev.2 ev.1 e) e

/-! ## `src/database/models.py` — rows of the persistent store -/

/-- A calendar date `(year, month, day)`; `datetime`/`date` values compare
lexicographically on these fields. -/
structure Date3 where
  y : Int
  m : Int
  d : Int
deriving DecidableEq, Repr

/-- Embeds `date` / `datetime` comparison (lexicographic). -/
def dateLE (a b : Date3) : Bool :=
  a.y < b.y ∨ (a.y = b.y ∧ (a.m < b.m ∨ (a.m = b.m ∧ a.d ≤ b.d)))

/-- Strict `date` / `datetime` comparison. -/
def dateLT (a b : Date3) : Bool :=
  a.y < b.y ∨ (a.y = b.y ∧ (a.m < b.m ∨ (a.m = b.m ∧ a.d < b.d)))

/-- Embeds `customers` row. -/
structure CustomerRow where
  id : Nat
  qbo_customer_id : String
  customer_name : String
  active : Bool
deriving DecidableEq, Repr

/-- Embeds `domains` row (`customer_id` is nullable). -/
structure DomainRow where
  id : Nat
  domain_name : String
  customer_id : Option Nat
  active : Bool
deriving DecidableEq, Repr

/-- Embeds `exclusions` row (`exclusion_type` is `'domain'` or `'cos'`). -/
structure ExclusionRow where
  exclusion_type : String
  pattern : String
  active : Bool
deriving DecidableEq, Repr

/-- Embeds `cos_mappings` row (`unit_price` is a cached default the invoice path
never reads into line items). -/
structure CoSRow where
  id : Nat
  cos_name : String
  qbo_item_id : String
  qbo_item_name : String
  unit_price : ℚ
  quota_gb : Option Int
  active : Bool
deriving DecidableEq, Repr

/-- Embeds `usage_data` row. -/
structure UsageRow where
  report_date : Date3
  domain_id : Nat
  cos_id : Nat
  account_count : Int
deriving DecidableEq, Repr

/-- Embeds `monthly_highwater` row (unique on `(year, month, domain_id, cos_id)`). -/
structure HWRow where
  year : Int
  month : Int
  domain_id : Nat
  cos_id : Nat
  highwater_count : Int
  billable : Bool
deriving DecidableEq, Repr

/-- Embeds an `invoice_history` row: the payload columns the `InvoiceHistory`
declarative model actually declares (`models.py:177-190`; `qbo_invoice_id`
unique), minus the timestamp/audit columns no claim reads.  Note the model
declares **no** `idempotency_key` column (see `invoiceHistoryColumns`
below). -/
structure InvRow where
  qbo_invoice_id : String
  customer_id : Nat
  billing_year : Int
  billing_month : Int
  total_amount : ℚ
  line_items_count : Nat
  status : String
deriving DecidableEq, Repr

/-- The relational store: each table as its list of rows in table order. -/
structure DB where
  customers : List CustomerRow
  domains : List DomainRow
  exclusions : List ExclusionRow
  cos_mappings : List CoSRow
  usage_data : List UsageRow
  monthly_highwater : List HWRow
  invoice_history : List InvRow
deriving DecidableEq, Repr

/-- Embeds `fnmatch.fnmatch`, an external stdlib collaborator: the model is
parametric in the glob matcher (the callers lowercase both arguments
themselves, so the matcher itself is case-sensitive). -/
def GlobMatcher := String → String → Bool

/-- Stable insertion before the first strictly-greater element. -/
def pyInsert (le : α → α → Bool) (a : α) : List α → List α
  | [] => [a]
  | b :: bs => if le a b && !le b a then a :: b :: bs else b :: pyInsert le a bs

/-- Python `sorted`: a stable sort (any stable sort under the same total
preorder produces the same list, so stable insertion sort is a faithful
model and, unlike `List.mergeSort`, evaluates inside the kernel). -/
def pySorted (le : α → α → Bool) (l : List α) : List α :=
  l.foldl (fun acc a => pyInsert le a acc) []

/-! ## `src/database/queries.py` — `QueryHelper` -/

/-- Embeds `QueryHelper.is_domain_excluded`: some active `'domain'`-typed pattern
matches the lowercased name against the lowercased pattern. -/
def is_domain_excluded (matcher : GlobMatcher) (exclusions : List ExclusionRow)
    (domain_name : String) : Bool :=
  (exclusions.filter (fun e => e.exclusion_type = "domain" ∧ e.active)).any
    (fun e => matcher (toLowerStr domain_name) (toLowerStr e.pattern))

/-- Embeds `QueryHelper.is_cos_excluded`. -/
def is_cos_excluded (matcher : GlobMatcher) (exclusions : List ExclusionRow)
    (cos_name : String) : Bool :=
  (exclusions.filter (fun e => e.exclusion_type = "cos" ∧ e.active)).any
    (fun e => matcher (toLowerStr cos_name) (toLowerStr e.pattern))

/-- Embeds `QueryHelper.get_highwater_for_month(year, month, billable_only)`. -/
def get_highwater_for_month (db : DB) (year month : Int) (billable_only : Bool) :
    List HWRow :=
  let rows := db.monthly_highwater.filter (fun r => r.year = year ∧ r.month = month)
  if billable_only then rows.filter (·.billable) else rows

/-- Embeds `QueryHelper.get_usage_for_month`: usage rows with
`start_date <= report_date < start_date + 1 month`. -/
def get_usage_for_month (usage : List UsageRow) (year month : Int) : List UsageRow :=
  let start : Date3 := ⟨year, month, 1⟩
  let stop : Date3 := if month = 12 then ⟨year + 1, 1, 1⟩ else ⟨year, month + 1, 1⟩
  usage.filter (fun u => dateLE start u.report_date ∧ dateLT u.report_date stop)

/-- Embeds `QueryHelper.get_domains_for_customer`: active domains of the customer,
ordered by name. -/
def get_domains_for_customer (db : DB) (customer_id : Nat) : List DomainRow :=
  pySorted (fun a b => decide (a.domain_name ≤ b.domain_name))
    (db.domains.filter (fun d => d.customer_id = some customer_id ∧ d.active))

/-! ## `src/database/queries.py` — `QueryHelper.calculate_and_store_highwater` -/

/-- Building `highwater_dict`: first occurrence inserts the count, later
occurrences of the key take the running maximum (Python dicts keep
insertion order). -/
def hwUpsert (k : Nat × Nat) (c : Int) :
    List ((Nat × Nat) × Int) → List ((Nat × Nat) × Int)
  | [] => [(k, c)]
  | (k', v) :: rest =>
    if k' = k then (k', max v c) :: rest else (k', v) :: hwUpsert k c rest

/-- Grouping the month's usage rows by `(domain_id, cos_id)` with the
maximum `account_count` per group. -/
def groupHW (rows : List UsageRow) : List ((Nat × Nat) × Int) :=
  rows.foldl (fun acc u => hwUpsert (u.domain_id, u.cos_id) u.account_count acc) []

/-- The `query(MonthlyHighwater).filter(...)` key predicate of the store
loop. -/
def hwMatches (year month : Int) (did cid : Nat) (r : HWRow) : Bool :=
  r.year = year ∧ r.month = month ∧ r.domain_id = did ∧ r.cos_id = cid

/-- Update the first `monthly_highwater` row matching the key
(`query(...).first()`) in place, or append a fresh row (`session.add`). -/
def upsertHWRow (year month : Int) (did cid : Nat) (c : Int) (b : Bool) :
    List HWRow → List HWRow
  | [] => [{ year := year, month := month, domain_id := did, cos_id := cid,
             highwater_count := c, billable := b }]
  | r :: rest =>
    if hwMatches year month did cid r then
      { r with highwater_count := c, billable := b } :: rest
    else r :: upsertHWRow year month did cid c b rest

/-- The `billable` flag recomputed from the live exclusion state for a
`(domain_id, cos_id)` key; `none` when a foreign key is unresolvable
(the Python loop would raise an `AttributeError` there). -/
def billableFor (matcher : GlobMatcher) (domains : List DomainRow)
    (cos_mappings : List CoSRow) (exclusions : List ExclusionRow)
    (did cid : Nat) : Option Bool :=
  match domains.find? (fun d => d.id = did),
        cos_mappings.find? (fun c => c.id = cid) with
  | some domain, some cos =>
    some (!(is_domain_excluded matcher exclusions domain.domain_name
            || is_cos_excluded matcher exclusions cos.cos_name))
  | _, _ => none

/-- One iteration of the store loop: resolve the domain and CoS rows,
recompute `billable` from the live exclusion state, then update-or-insert. -/
def storeStep (matcher : GlobMatcher) (domains : List DomainRow)
    (cos_mappings : List CoSRow) (exclusions : List ExclusionRow) (year month : Int)
    (rows : List HWRow) (item : (Nat × Nat) × Int) : Option (List HWRow) :=
  (billableFor matcher domains cos_mappings exclusions item.1.1 item.1.2).map
    (fun billable => upsertHWRow year month item.1.1 item.1.2 item.2 billable rows)

/-- Embeds `QueryHelper.calculate_and_store_highwater(year, month)` as a transformer
of the store (`none` models the run crashing on a dangling foreign key). -/
def calculate_and_store_highwater (matcher : GlobMatcher) (db : DB)
    (year month : Int) : Option DB :=
  let grouped := groupHW (get_usage_for_month db.usage_data year month)
  (grouped.foldlM
      (storeStep matcher db.domains db.cos_mappings db.exclusions year month)
      db.monthly_highwater).map
    (fun hw => { db with monthly_highwater := hw })

/-! ## `src/reconciliation/detector.py` — `ChangeDetector` -/

/-- Embeds `ChangeDetector.find_new_domains(current_domains)`: observed minus
known, minus excluded, returned sorted (the input is a Python set, so it is
deduplicated). -/
def find_new_domains (matcher : GlobMatcher) (db : DB) (current_domains : List String) :
    List String :=
  let known := db.domains.map (·.domain_name)
  let newDomains := current_domains.dedup.filter (fun d => d ∉ known)
  let filtered := newDomains.filter
    (fun d => ¬ is_domain_excluded matcher db.exclusions d)
  pySorted (fun a b => decide (a ≤ b)) filtered

/-- Embeds `ChangeDetector.find_new_cos(current_cos_names)`: observed CoS names with
no active mapping, minus excluded, sorted. -/
def find_new_cos (matcher : GlobMatcher) (db : DB) (current_cos_names : List String) :
    List String :=
  let mapped := (db.cos_mappings.filter (·.active)).map (·.cos_name)
  let newCos := current_cos_names.dedup.filter (fun c => c ∉ mapped)
  let filtered := newCos.filter (fun c => ¬ is_cos_excluded matcher db.exclusions c)
  pySorted (fun a b => decide (a ≤ b)) filtered

/-- Embeds `ChangeDetector.find_missing_domains(current_domains, year, month)`:
previous-period highwater rows (with the January wraparound, and **without**
a `billable` filter — `get_highwater_for_month` is called with its default
`billable_only=False`), resolved to domain names (unresolvable ids are
skipped), minus the current set, sorted. -/
def find_missing_domains (db : DB) (current_domains : List String) (year month : Int) :
    List String :=
  let prev : Int × Int := if month = 1 then (year - 1, 12) else (year, month - 1)
  let prev_highwater := get_highwater_for_month db prev.1 prev.2 false
  let prev_domains := (prev_highwater.filterMap
    (fun hw => (db.domains.find? (fun d => d.id = hw.domain_id)).map (·.domain_name))).dedup
  pySorted (fun a b => decide (a ≤ b)) (prev_domains.filter (fun d => d ∉ current_domains))

/-- The spec's own description of `missing_entities` ("entities billable in
the immediately preceding period but absent from the current observed set"),
stated for comparison with `find_missing_domains`. -/
def specMissingEntities (db : DB) (current_domains : List String) (year month : Int) :
    List String :=
  let prev : Int × Int := if month = 1 then (year - 1, 12) else (year, month - 1)
  let prev_highwater := get_highwater_for_month db prev.1 prev.2 true
  let prev_domains := (prev_highwater.filterMap
    (fun hw => (db.domains.find? (fun d => d.id = hw.domain_id)).map (·.domain_name))).dedup
  pySorted (fun a b => decide (a ≤ b)) (prev_domains.filter (fun d => d ∉ current_domains))

/-! ## `src/reconciliation/mapper.py` — `MappingManager` suggestions -/

/-- Python `name.split('.')`, written on the character list so the kernel
can evaluate it. -/
def pySplitDot (s : String) : List String :=
  (s.data.foldr
    (fun c acc =>
      match acc with
      | [] => [[c]]
      | g :: gs => if c = '.' then [] :: g :: gs else (c :: g) :: gs) [[]]).map
    (fun l => ⟨l⟩)

/-- Python `'.'.join(parts)`. -/
def pyJoinDot (parts : List String) : String :=
  ⟨List.intercalate ['.'] (parts.map (·.data))⟩

/-- The "last-two-label root" of a name: `'.'.join(parts[-2:])`. -/
def rootOf (domain_name : String) : String :=
  let parts := pySplitDot domain_name
  pyJoinDot (parts.drop (parts.length - 2))

/-- Embeds `MappingManager.find_similar_domains(domain_name)`: names of active
domains, in table order, that differ from the input and **end with** the
input's last-two-label root. -/
def find_similar_domains (db : DB) (domain_name : String) : List String :=
  let parts := pySplitDot domain_name
  if parts.length < 2 then []
  else
    let root := pyJoinDot (parts.drop (parts.length - 2))
    ((db.domains.filter (·.active)).filter
      (fun d => d.domain_name ≠ domain_name ∧ strEndsWith d.domain_name root)).map
      (·.domain_name)

/-- Embeds `MappingManager.suggest_customer_for_domain(domain_name)`: the customer
of the first similar domain (owner resolved through `get_domain_by_name`;
an unowned domain yields no suggestion). -/
def suggest_customer_for_domain (db : DB) (domain_name : String) : Option CustomerRow :=
  match find_similar_domains db domain_name with
  | [] => none
  | s :: _ =>
    match db.domains.find? (fun d => d.domain_name = s) with
    | none => none
    | some drow =>
      match drow.customer_id with
      | none => none
      | some cid => db.customers.find? (fun c => c.id = cid)

/-! ## `src/qbo/invoice.py` — the `invoice_history` columns it reads and writes

The generator's idempotency mechanism lives in two places: the duplicate
check `query(InvoiceHistory).filter(InvoiceHistory.idempotency_key == ...)`
(`invoice.py:69-71`) and the history insert
`InvoiceHistory(..., idempotency_key=...)` in `_record_invoice_history`
(`invoice.py:355-364`).  Both are stated here at the schema level, as the
literal column names they use, next to the column list the `InvoiceHistory`
declarative model actually declares. -/

/-- Embeds the column list of the `InvoiceHistory` declarative model
(`models.py:177-190`), in declaration order; the `customer` relationship
(`models.py:193`) is not a column, and no migration under the repository adds
any further column. -/
def invoiceHistoryColumns : List String :=
  ["id", "qbo_invoice_id", "customer_id", "billing_year", "billing_month",
   "invoice_date", "total_amount", "line_items_count", "status",
   "created_at", "updated_at", "notes"]

/-- Embeds the attribute the duplicate check filters on:
`InvoiceHistory.idempotency_key == idempotency_key` (`invoice.py:70`). -/
def duplicateCheckColumn : String := "idempotency_key"

/-- Embeds the keyword arguments of the `InvoiceHistory(...)` constructor
call in `_record_invoice_history` (`invoice.py:355-364`), in call order. -/
def recordInvoiceHistoryKwargs : List String :=
  ["qbo_invoice_id", "customer_id", "billing_year", "billing_month",
   "invoice_date", "total_amount", "line_items_count", "status",
   "idempotency_key"]

/-- The updates one key receives from one record's `cos_usage` loop. -/
def cosEvents (d : String) (rd : Option Nat) (cos : List (String × Int))
    (k : String × String) : List (Int × Option Nat) :=
  if d = k.1 then (cos.filter (fun p => p.1 = k.2)).map (fun p => (p.2, rd)) else []

/-! ## Facts about the classifier and the retry wrapper -/

/-- Every branch of the classifier preserves the original exception. -/
theorem classify_originalError (m : String) (op : Option String) :
    (classify_qbo_error m op).originalError = some m := by
  simp only [classify_qbo_error]
  repeat' split
  all_goals rfl

/-- Every branch of the classifier leaves `retry_after` at the default 60
(the classifier never passes a server-provided value). -/
theorem classify_retryAfter (m : String) (op : Option String) :
    (classify_qbo_error m op).retryAfter = 60 := by
  simp only [classify_qbo_error]
  repeat' split
  all_goals rfl

/-- One unfolding of the loop for a failing attempt that is retried. -/
theorem retryLoop_retry_eq (cfg : RetryConfig) (op : Option String)
    (outcomes : Nat → Option String) (jitters : Nat → ℚ) (attempt fuel : Nat)
    (m : String) (hm : outcomes attempt = some m)
    (hr : (classify_qbo_error m op).isRetryable = true)
    (hlt : attempt < cfg.maxRetries) :
    retryLoop cfg op outcomes jitters attempt (fuel + 1) =
      { raised := (retryLoop cfg op outcomes jitters (attempt + 1) fuel).raised
        sleeps := jitterDelay cfg jitters attempt
            (baseDelay cfg (classify_qbo_error m op) attempt) ::
          (retryLoop cfg op outcomes jitters (attempt + 1) fuel).sleeps
        calls := (retryLoop cfg op outcomes jitters (attempt + 1) fuel).calls + 1 } := by
  conv =>
    lhs
    rw [retryLoop]
  rw [hm]
  simp [hr, Nat.not_le.mpr hlt]

/-- One unfolding of the loop for a failing attempt that is not retried
(non-retryable classification, or the final attempt). -/
theorem retryLoop_stop_eq (cfg : RetryConfig) (op : Option String)
    (outcomes : Nat → Option String) (jitters : Nat → ℚ) (attempt fuel : Nat)
    (m : String) (hm : outcomes attempt = some m)
    (hstop : (classify_qbo_error m op).isRetryable = false ∨ cfg.maxRetries ≤ attempt) :
    retryLoop cfg op outcomes jitters attempt (fuel + 1) =
      { raised := some (classify_qbo_error m op), sleeps := [], calls := 1 } := by
  conv =>
    lhs
    rw [retryLoop]
  rw [hm]
  rcases hstop with h | h
  · simp [h]
  · by_cases hr : (classify_qbo_error m op).isRetryable = true
    · simp [hr, h]
    · simp [eq_false_of_ne_true hr]

/-- One unfolding of the loop for a succeeding attempt. -/
theorem retryLoop_ok_eq (cfg : RetryConfig) (op : Option String)
    (outcomes : Nat → Option String) (jitters : Nat → ℚ) (attempt fuel : Nat)
    (hm : outcomes attempt = none) :
    retryLoop cfg op outcomes jitters attempt (fuel + 1) =
      { raised := none, sleeps := [], calls := 1 } := by
  conv =>
    lhs
    rw [retryLoop]
  rw [hm]

/-- The loop makes at most `fuel` invocations of the wrapped operation. -/
theorem retryLoop_calls_le (cfg : RetryConfig) (op : Option String)
    (outcomes : Nat → Option String) (jitters : Nat → ℚ) :
    ∀ fuel attempt, (retryLoop cfg op outcomes jitters attempt fuel).calls ≤ fuel := by
  intro fuel
  induction fuel with
  | zero => intro attempt; simp [retryLoop]
  | succ f ih =>
    intro attempt
    cases houtcome : outcomes attempt with
    | none =>
      rw [retryLoop_ok_eq cfg op outcomes jitters attempt f houtcome]
      exact Nat.succ_le_succ (Nat.zero_le f)
    | some m =>
      by_cases hr : (classify_qbo_error m op).isRetryable = true
      · by_cases hlt : attempt < cfg.maxRetries
        · rw [retryLoop_retry_eq cfg op outcomes jitters attempt f m houtcome hr hlt]
          exact Nat.succ_le_succ (ih (attempt + 1))
        · rw [retryLoop_stop_eq cfg op outcomes jitters attempt f m houtcome
            (Or.inr (Nat.le_of_not_lt hlt))]
          exact Nat.succ_le_succ (Nat.zero_le f)
      · rw [retryLoop_stop_eq cfg op outcomes jitters attempt f m houtcome
          (Or.inl (eq_false_of_ne_true hr))]
        exact Nat.succ_le_succ (Nat.zero_le f)

/-- Each sleep performed by the loop is the (jittered) delay computed for the
corresponding failed attempt: position `i` of the sleep list belongs to
attempt `attempt + i`, whose outcome was an exception. -/
theorem retryLoop_sleeps_spec (cfg : RetryConfig) (op : Option String)
    (outcomes : Nat → Option String) (jitters : Nat → ℚ) :
    ∀ fuel attempt i d,
      (retryLoop cfg op outcomes jitters attempt fuel).sleeps.get? i = some d →
      ∃ m, outcomes (attempt + i) = some m ∧
        d = jitterDelay cfg jitters (attempt + i)
              (baseDelay cfg (classify_qbo_error m op) (attempt + i)) := by
  intro fuel
  induction fuel with
  | zero => intro attempt i d h; simp [retryLoop] at h
  | succ f ih =>
    intro attempt i d h
    cases houtcome : outcomes attempt with
    | none =>
      rw [retryLoop_ok_eq cfg op outcomes jitters attempt f houtcome] at h
      simp at h
    | some m =>
      by_cases hr : (classify_qbo_error m op).isRetryable = true
      · by_cases hlt : attempt < cfg.maxRetries
        · rw [retryLoop_retry_eq cfg op outcomes jitters attempt f m houtcome hr hlt] at h
          cases i with
          | zero =>
            simp only [List.get?_cons_zero, Option.some.injEq] at h
            exact ⟨m, by simpa using houtcome, by simpa using h.symm⟩
          | succ j =>
            simp only [List.get?_cons_succ] at h
            obtain ⟨m', hm', hd⟩ := ih (attempt + 1) j d h
            have harith : attempt + 1 + j = attempt + (j + 1) := by omega
            rw [harith] at hm' hd
            exact ⟨m', hm', hd⟩
        · rw [retryLoop_stop_eq cfg op outcomes jitters attempt f m houtcome
            (Or.inr (Nat.le_of_not_lt hlt))] at h
          simp at h
      · rw [retryLoop_stop_eq cfg op outcomes jitters attempt f m houtcome
          (Or.inl (eq_false_of_ne_true hr))] at h
        simp at h

/-- If every attempt up to the last raises a retryably-classified exception,
the loop performs all remaining invocations and ends with the classification
of the final attempt's exception. -/
theorem retryLoop_exhausts (cfg : RetryConfig) (op : Option String)
    (outcomes : Nat → Option String) (jitters : Nat → ℚ) :
    ∀ fuel attempt, attempt + (fuel + 1) = cfg.maxRetries + 1 →
      (∀ a, attempt ≤ a → a ≤ cfg.maxRetries →
        ∃ m, outcomes a = some m ∧ (classify_qbo_error m op).isRetryable = true) →
      (retryLoop cfg op outcomes jitters attempt (fuel + 1)).calls = fuel + 1 ∧
      ∃ m, outcomes cfg.maxRetries = some m ∧
        (retryLoop cfg op outcomes jitters attempt (fuel + 1)).raised =
          some (classify_qbo_error m op) := by
  intro fuel
  induction fuel with
  | zero =>
    intro attempt hsum hall
    have hatt : attempt = cfg.maxRetries := by omega
    obtain ⟨m, hm, hr⟩ := hall attempt (le_refl _) (by omega)
    subst hatt
    rw [retryLoop_stop_eq cfg op outcomes jitters cfg.maxRetries 0 m hm
      (Or.inr (le_refl _))]
    exact ⟨rfl, m, hm, rfl⟩
  | succ f ih =>
    intro attempt hsum hall
    have hlt : attempt < cfg.maxRetries := by omega
    obtain ⟨m, hm, hr⟩ := hall attempt (le_refl _) (by omega)
    obtain ⟨ihcalls, m', hm', ihraised⟩ :=
      ih (attempt + 1) (by omega) (fun a ha hb => hall a (by omega) hb)
    rw [retryLoop_retry_eq cfg op outcomes jitters attempt (f + 1) m hm hr hlt]
    exact ⟨by simpa using ihcalls, m', hm', by simpa using ihraised⟩

/-! ## Claim C3 -/

/-- C3, counterexample: with the default configuration (jitter enabled) and a
zero jitter draw, the first failure of an operation classified as a rate-limit
error (attempt 0 of 4, not the last) is followed by a sleep of 30 seconds —
less than the server-suggested interval of `retry_after = 60` that the claim
promises as a lower bound. -/
theorem C3_counterexample_jitter_below_retry_after :
    (retry_with_backoff {} (some "create_invoice") (fun _ => some "429")
        (fun _ => 0)).sleeps.get? 0 = some 30 ∧
    (classify_qbo_error "429" (some "create_invoice")).kind = .rateLimit ∧
    (classify_qbo_error "429" (some "create_invoice")).retryAfter = 60 ∧
    (30 : ℚ) < 60 ∧ ({} : RetryConfig).maxRetries = 3 := by
  have hkind : (classify_qbo_error "429" (some "create_invoice")).kind = .rateLimit := by
    decide
  have hra : (classify_qbo_error "429" (some "create_invoice")).retryAfter = 60 := by
    decide
  refine ⟨?_, hkind, hra, by norm_num, rfl⟩
  show (retryLoop {} (some "create_invoice") (fun _ => some "429") (fun _ => 0)
      0 4).sleeps.get? 0 = some 30
  rw [retryLoop_retry_eq {} (some "create_invoice") (fun _ => some "429")
    (fun _ => 0) 0 3 "429" rfl (by decide) (by norm_num)]
  simp only [List.get?_cons_zero, Option.some.injEq, jitterDelay, baseDelay,
    if_pos hkind, hra]
  norm_num

/-- C3, amended: whenever a failure is classified as a rate-limit error on an
attempt that is not the last, the wrapper waits at least **half** the
server-suggested interval before the next attempt (the interval is scaled by
the jitter factor `0.5 + r`, `r ∈ [0,1)`; with jitter disabled the wait is at
least the full interval), and the wrapped operation is invoked at most
`max_retries + 1` times, i.e. retried at most the configured maximum number
of times. -/
theorem C3_rate_limit_wait_and_retry_bound (cfg : RetryConfig) (op : Option String)
    (outcomes : Nat → Option String) (jitters : Nat → ℚ)
    (hj : ∀ n, 0 ≤ jitters n) :
    (retry_with_backoff cfg op outcomes jitters).calls ≤ cfg.maxRetries + 1 ∧
    ∀ i d m, (retry_with_backoff cfg op outcomes jitters).sleeps.get? i = some d →
      outcomes i = some m → (classify_qbo_error m op).kind = .rateLimit →
      ((classify_qbo_error m op).retryAfter : ℚ) / 2 ≤ d ∧
      (cfg.jitter = false → ((classify_qbo_error m op).retryAfter : ℚ) ≤ d) := by
  constructor
  · exact retryLoop_calls_le cfg op outcomes jitters (cfg.maxRetries + 1) 0
  · intro i d m hget hout hkind
    obtain ⟨m', hm', hd⟩ :=
      retryLoop_sleeps_spec cfg op outcomes jitters (cfg.maxRetries + 1) 0 i d hget
    rw [Nat.zero_add] at hm' hd
    rw [hout] at hm'
    injection hm' with hmm
    subst hmm
    rw [hd]
    simp only [baseDelay, if_pos hkind, classify_retryAfter m op, jitterDelay]
    by_cases hjit : cfg.jitter = true
    · rw [if_pos hjit]
      constructor
      · have := hj i
        push_cast
        nlinarith
      · intro hfalse
        rw [hjit] at hfalse
        exact absurd hfalse (by simp)
    · rw [if_neg hjit]
      constructor
      · push_cast
        norm_num
      · intro _
        push_cast
        norm_num

/-- C3, witness for the amended theorem at a concrete run: default
configuration, every attempt raising a 429, zero jitter draws. -/
theorem C3_rate_limit_wait_and_retry_bound_witness :
    (retry_with_backoff {} (some "create_invoice") (fun _ => some "429")
        (fun _ => 0)).calls ≤ 4 ∧
    ((classify_qbo_error "429" (some "create_invoice")).retryAfter : ℚ) / 2 ≤ 30 := by
  have hget : (retry_with_backoff {} (some "create_invoice") (fun _ => some "429")
      (fun _ => 0)).sleeps.get? 0 = some 30 := by
    show (retryLoop {} (some "create_invoice") (fun _ => some "429") (fun _ => 0)
        0 4).sleeps.get? 0 = some 30
    rw [retryLoop_retry_eq {} (some "create_invoice") (fun _ => some "429")
      (fun _ => 0) 0 3 "429" rfl (by decide) (by norm_num)]
    simp only [List.get?_cons_zero, Option.some.injEq, jitterDelay, baseDelay,
      if_pos (show (classify_qbo_error "429" (some "create_invoice")).kind = .rateLimit
        by decide),
      (show (classify_qbo_error "429" (some "create_invoice")).retryAfter = 60 by decide)]
    norm_num
  have h := C3_rate_limit_wait_and_retry_bound {} (some "create_invoice")
    (fun _ => some "429") (fun _ => 0) (fun n => le_refl 0)
  exact ⟨h.1, (h.2 0 30 "429" hget rfl (by decide)).1⟩

/-! ## Claim C9 -/

/-- C9: a non-retryable classification of the first raised error makes the
wrapper stop after exactly one invocation, raising the classified error; when
every attempt up to the configured maximum raises a retryably-classified
error, the wrapper invokes the operation `max_retries + 1` times and raises
the classification of the final attempt's error; in both cases the raised
error preserves the original exception as `original_error`. -/
theorem C9_nonretryable_once_retryable_exhausts (cfg : RetryConfig)
    (op : Option String) (outcomes : Nat → Option String) (jitters : Nat → ℚ) :
    (∀ m, outcomes 0 = some m → (classify_qbo_error m op).isRetryable = false →
      retry_with_backoff cfg op outcomes jitters =
        { raised := some (classify_qbo_error m op), sleeps := [], calls := 1 } ∧
      (classify_qbo_error m op).originalError = some m) ∧
    ((∀ a, a ≤ cfg.maxRetries →
        ∃ m, outcomes a = some m ∧ (classify_qbo_error m op).isRetryable = true) →
      (retry_with_backoff cfg op outcomes jitters).calls = cfg.maxRetries + 1 ∧
      ∃ m, outcomes cfg.maxRetries = some m ∧
        (retry_with_backoff cfg op outcomes jitters).raised =
          some (classify_qbo_error m op) ∧
        (classify_qbo_error m op).originalError = some m) := by
  constructor
  · intro m hm hnr
    unfold retry_with_backoff
    rw [retryLoop_stop_eq cfg op outcomes jitters 0 cfg.maxRetries m hm (Or.inl hnr)]
    exact ⟨rfl, classify_originalError m op⟩
  · intro hall
    obtain ⟨hcalls, m, hm, hraised⟩ :=
      retryLoop_exhausts cfg op outcomes jitters cfg.maxRetries 0 (by omega)
        (fun a _ hb => hall a hb)
    exact ⟨hcalls, m, hm, hraised, classify_originalError m op⟩

/-- C9, witness: a validation-classified failure is invoked once and raised;
a server-error-classified failure exhausts all four invocations. -/
theorem C9_nonretryable_once_retryable_exhausts_witness :
    retry_with_backoff {} (some "create_invoice")
        (fun _ => some "Bad Request: invalid RecordRef") (fun _ => 0) =
      { raised := some (classify_qbo_error "Bad Request: invalid RecordRef"
          (some "create_invoice")), sleeps := [], calls := 1 } ∧
    (retry_with_backoff {} (some "create_invoice") (fun _ => some "503")
        (fun _ => 0)).calls = 4 := by
  have h1 := (C9_nonretryable_once_retryable_exhausts {} (some "create_invoice")
    (fun _ => some "Bad Request: invalid RecordRef") (fun _ => 0)).1
    "Bad Request: invalid RecordRef" rfl (by decide)
  have h2 := (C9_nonretryable_once_retryable_exhausts {} (some "create_invoice")
    (fun _ => some "503") (fun _ => 0)).2
    (fun a _ => ⟨"503", rfl, by decide⟩)
  exact ⟨h1.1, h2.1⟩

/-! ## Claim C10 -/

/-- C10: the classifier tests the lowercased message in a fixed priority
order; any message containing "invalid" but none of the rate-limit or auth
markers ("429", "rate limit", "too many requests", "401", "403",
"unauthorized", "forbidden") is classified as a validation error, which is
not retryable — even when the message also contains a 5xx code such as
"503". -/
theorem C10_invalid_wins_over_5xx (m : String) (op : Option String)
    (hinv : strContains (toLowerStr m) "invalid" = true)
    (h429 : strContains (toLowerStr m) "429" = false)
    (hrl : strContains (toLowerStr m) "rate limit" = false)
    (htmr : strContains (toLowerStr m) "too many requests" = false)
    (h401 : strContains (toLowerStr m) "401" = false)
    (h403 : strContains (toLowerStr m) "403" = false)
    (hua : strContains (toLowerStr m) "unauthorized" = false)
    (hfb : strContains (toLowerStr m) "forbidden" = false) :
    (classify_qbo_error m op).kind = .validation ∧
    (classify_qbo_error m op).isRetryable = false := by
  have : classify_qbo_error m op =
      { kind := .validation, message := "QuickBooks validation error",
        operation := op, originalError := some m } := by
    simp only [classify_qbo_error, hinv, h429, hrl, htmr, h401, h403, hua, hfb]
    simp
  rw [this]
  exact ⟨rfl, rfl⟩

/-- C10, witness: a message carrying both "invalid" and "503" is classified
as a (non-retryable) validation error. -/
theorem C10_invalid_wins_over_5xx_witness :
    (classify_qbo_error "Invalid request while backend returned 503"
        (some "create_invoice")).kind = .validation ∧
    (classify_qbo_error "Invalid request while backend returned 503"
        (some "create_invoice")).isRetryable = false :=
  C10_invalid_wins_over_5xx "Invalid request while backend returned 503"
    (some "create_invoice") (by decide) (by decide) (by decide) (by decide)
    (by decide) (by decide) (by decide) (by decide)

/-! ## Membership facts about the sorting model -/

/-- Insertion adds exactly the inserted element. -/
theorem mem_pyInsert (le : α → α → Bool) (a x : α) :
    ∀ l : List α, x ∈ pyInsert le a l ↔ x = a ∨ x ∈ l := by
  intro l
  induction l with
  | nil => simp [pyInsert]
  | cons b bs ih =>
    unfold pyInsert
    split
    · simp
    · simp only [List.mem_cons, ih]
      tauto

/-- Sorting preserves membership. -/
theorem mem_pySorted (le : α → α → Bool) (x : α) (l : List α) :
    x ∈ pySorted le l ↔ x ∈ l := by
  suffices h : ∀ (l : List α) (acc : List α),
      x ∈ l.foldl (fun acc a => pyInsert le a acc) acc ↔ x ∈ acc ∨ x ∈ l by
    simpa [pySorted] using h l []
  intro l
  induction l with
  | nil => simp
  | cons b bs ih =>
    intro acc
    simp only [List.foldl_cons, ih, mem_pyInsert, List.mem_cons]
    tauto

/-! ## Claim C6 -/

/-- C6: a name matched by an active exclusion pattern of the corresponding
type (i.e. one on which `is_domain_excluded` / `is_cos_excluded` returns
true) never appears in `find_new_domains` / `find_new_cos`, for every state
of the store, every matcher and every observed set. -/
theorem C6_excluded_never_reported (matcher : GlobMatcher) (db : DB)
    (current_domains current_cos : List String) (name : String) :
    (is_domain_excluded matcher db.exclusions name = true →
      name ∉ find_new_domains matcher db current_domains) ∧
    (is_cos_excluded matcher db.exclusions name = true →
      name ∉ find_new_cos matcher db current_cos) := by
  constructor
  · intro hexcl hmem
    unfold find_new_domains at hmem
    rw [mem_pySorted, List.mem_filter] at hmem
    rw [hexcl] at hmem
    simp at hmem
  · intro hexcl hmem
    unfold find_new_cos at hmem
    rw [mem_pySorted, List.mem_filter] at hmem
    rw [hexcl] at hmem
    simp at hmem

/-- C6, witness: with an equality matcher, an active `domain` exclusion for
"internal.test" and an active `cos` exclusion for "free-cos", neither name is
reported as new even though neither is known to the store. -/
theorem C6_excluded_never_reported_witness :
    ("internal.test" ∉ find_new_domains (fun n p => n == p)
        { customers := [], domains := [],
          exclusions := [{ exclusion_type := "domain", pattern := "internal.test",
                           active := true },
                         { exclusion_type := "cos", pattern := "free-cos",
                           active := true }],
          cos_mappings := [], usage_data := [], monthly_highwater := [],
          invoice_history := [] }
        ["internal.test", "new.example.com"]) ∧
    ("free-cos" ∉ find_new_cos (fun n p => n == p)
        { customers := [], domains := [],
          exclusions := [{ exclusion_type := "domain", pattern := "internal.test",
                           active := true },
                         { exclusion_type := "cos", pattern := "free-cos",
                           active := true }],
          cos_mappings := [], usage_data := [], monthly_highwater := [],
          invoice_history := [] }
        ["free-cos"]) :=
  ⟨(C6_excluded_never_reported (fun n p => n == p) _ _ [] "internal.test").1 (by decide),
   (C6_excluded_never_reported (fun n p => n == p) _ [] _ "free-cos").2 (by decide)⟩

/-! ## Claim C4 -/

/-- C4, counterexample: a domain whose only previous-period highwater row is
**not** billable is still reported missing — `find_missing_domains` reads the
previous period with `billable_only` left at `False`, while the claim (and
the spec's `missing_entities`) demand only entities billable in the
preceding period. -/
theorem C4_counterexample_nonbillable_reported :
    find_missing_domains
        { customers := [],
          domains := [{ id := 1, domain_name := "d.com", customer_id := none,
                        active := true }],
          exclusions := [], cos_mappings := [], usage_data := [],
          monthly_highwater := [{ year := 2025, month := 4, domain_id := 1,
                                  cos_id := 1, highwater_count := 5,
                                  billable := false }],
          invoice_history := [] } [] 2025 5 = ["d.com"] ∧
    specMissingEntities
        { customers := [],
          domains := [{ id := 1, domain_name := "d.com", customer_id := none,
                        active := true }],
          exclusions := [], cos_mappings := [], usage_data := [],
          monthly_highwater := [{ year := 2025, month := 4, domain_id := 1,
                                  cos_id := 1, highwater_count := 5,
                                  billable := false }],
          invoice_history := [] } [] 2025 5 = [] := by
  constructor <;> rfl

/-- C4, amended: `find_missing_domains(current, year, month)` returns exactly
the domain names resolvable from the immediately preceding period's persisted
highwater rows — **billable or not** — that are absent from the current
observed set, where the preceding period of `(year, 1)` is `(year-1, 12)` and
otherwise `(year, month-1)`. -/
theorem C4_missing_is_prev_period_minus_current (db : DB)
    (current_domains : List String) (year month : Int) (name : String) :
    name ∈ find_missing_domains db current_domains year month ↔
      ((∃ hw ∈ db.monthly_highwater,
          hw.year = (if month = 1 then year - 1 else year) ∧
          hw.month = (if month = 1 then (12 : Int) else month - 1) ∧
          (db.domains.find? (fun d => d.id = hw.domain_id)).map (·.domain_name) =
            some name) ∧
        name ∉ current_domains) := by
  unfold find_missing_domains get_highwater_for_month
  by_cases hm : month = 1 <;>
    · simp only [hm, if_true, if_false, reduceIte, Bool.false_eq_true, mem_pySorted,
        List.mem_filter, List.mem_dedup, List.mem_filterMap, decide_eq_true_eq]
      constructor
      · rintro ⟨⟨hw, hhw, hname⟩, hcur⟩
        exact ⟨⟨hw, hhw.1, hhw.2.1, hhw.2.2, hname⟩, hcur⟩
      · rintro ⟨⟨hw, hhw, hy, hmo, hname⟩, hcur⟩
        exact ⟨⟨hw, ⟨hhw, hy, hmo⟩, hname⟩, hcur⟩

/-! ## Claim C5 -/

/-- C5, counterexample: the heuristic uses a plain `endswith` on the
last-two-label root, so `notexample.com` — whose own last-two-label root is
`notexample.com`, not `example.com` — is used as the basis of a suggestion
for `mail.example.com`, contradicting the claim that names whose last two
labels differ from the input's are never used. -/
theorem C5_counterexample_suffix_not_label_match :
    suggest_customer_for_domain
        { customers := [{ id := 7, qbo_customer_id := "q7",
                          customer_name := "Other Co", active := true }],
          domains := [{ id := 1, domain_name := "notexample.com",
                        customer_id := some 7, active := true }],
          exclusions := [], cos_mappings := [], usage_data := [],
          monthly_highwater := [], invoice_history := [] }
        "mail.example.com" =
      some { id := 7, qbo_customer_id := "q7", customer_name := "Other Co",
             active := true } ∧
    rootOf "mail.example.com" = "example.com" ∧
    rootOf "notexample.com" = "notexample.com" ∧
    rootOf "notexample.com" ≠ rootOf "mail.example.com" := by
  refine ⟨by decide, by decide, by decide, by decide⟩

/-- C5, amended: `find_similar_domains` collects (in store order) the names
of existing **active** entities that differ from the input and whose name
**ends with** the input's last-two-label root — a pure suffix test, which
also accepts names whose own last two labels differ (e.g. `notexample.com`
for root `example.com`); the suggestion, when produced, is the stored owner
of the **first** such name, and no suggestion is produced when no such
entity exists. -/
theorem C5_suggestion_is_first_suffix_match (db : DB) (domain_name : String) :
    (∀ s, s ∈ find_similar_domains db domain_name ↔
      (2 ≤ (pySplitDot domain_name).length ∧
       ∃ d ∈ db.domains, d.active = true ∧ d.domain_name = s ∧
         s ≠ domain_name ∧ strEndsWith s (rootOf domain_name) = true)) ∧
    (∀ c, suggest_customer_for_domain db domain_name = some c →
      ∃ s, (find_similar_domains db domain_name).head? = some s ∧
        ∃ drow, db.domains.find? (fun d => d.domain_name = s) = some drow ∧
          ∃ cid, drow.customer_id = some cid ∧
            db.customers.find? (fun cu => cu.id = cid) = some c) ∧
    (find_similar_domains db domain_name = [] →
      suggest_customer_for_domain db domain_name = none) := by
  refine ⟨?_, ?_, ?_⟩
  · intro s
    unfold find_similar_domains
    by_cases hlen : (pySplitDot domain_name).length < 2
    · simp only [hlen, if_true, reduceIte, List.not_mem_nil, false_iff]
      intro hcontra
      omega
    · have h2 : 2 ≤ (pySplitDot domain_name).length := by omega
      simp only [hlen, if_false, reduceIte, List.mem_map, List.mem_filter,
        decide_eq_true_eq, rootOf]
      constructor
      · rintro ⟨d, ⟨⟨hd, hact⟩, hne, hsuf⟩, hname⟩
        exact ⟨h2, d, hd, by simpa using hact, hname,
          hname ▸ hne, hname ▸ hsuf⟩
      · rintro ⟨-, d, hd, hact, hname, hne, hsuf⟩
        exact ⟨d, ⟨⟨hd, by simpa using hact⟩, hname ▸ hne, hname ▸ hsuf⟩, hname⟩
  · intro c hc
    unfold suggest_customer_for_domain at hc
    cases hsim : find_similar_domains db domain_name with
    | nil => rw [hsim] at hc; cases hc
    | cons s rest =>
      rw [hsim] at hc
      dsimp only at hc
      cases hfind : db.domains.find? (fun d => d.domain_name = s) with
      | none => rw [hfind] at hc; cases hc
      | some drow =>
        rw [hfind] at hc
        dsimp only at hc
        cases hcid : drow.customer_id with
        | none => rw [hcid] at hc; cases hc
        | some cid =>
          rw [hcid] at hc
          exact ⟨s, rfl, drow, hfind, cid, hcid, hc⟩
  · intro hnil
    unfold suggest_customer_for_domain
    rw [hnil]

/-- C5, witness for the amended theorem: on a store holding the active domain
`mail.example.com` owned by customer 3, the suggestion for
`webmail.example.com` is customer 3, resolved from the first (and only)
suffix match. -/
theorem C5_suggestion_is_first_suffix_match_witness :
    ∃ s, (find_similar_domains
        { customers := [{ id := 3, qbo_customer_id := "q3",
                          customer_name := "Example Co", active := true }],
          domains := [{ id := 1, domain_name := "mail.example.com",
                        customer_id := some 3, active := true }],
          exclusions := [], cos_mappings := [], usage_data := [],
          monthly_highwater := [], invoice_history := [] }
        "webmail.example.com").head? = some s ∧
      ∃ drow, (DB.domains
          { customers := [{ id := 3, qbo_customer_id := "q3",
                            customer_name := "Example Co", active := true }],
            domains := [{ id := 1, domain_name := "mail.example.com",
                          customer_id := some 3, active := true }],
            exclusions := [], cos_mappings := [], usage_data := [],
            monthly_highwater := [], invoice_history := [] }).find?
          (fun d => d.domain_name = s) = some drow ∧
        ∃ cid, drow.customer_id = some cid ∧
          (DB.customers
            { customers := [{ id := 3, qbo_customer_id := "q3",
                              customer_name := "Example Co", active := true }],
              domains := [{ id := 1, domain_name := "mail.example.com",
                            customer_id := some 3, active := true }],
              exclusions := [], cos_mappings := [], usage_data := [],
              monthly_highwater := [], invoice_history := [] }).find?
            (fun cu => cu.id = cid) =
            some { id := 3, qbo_customer_id := "q3",
                   customer_name := "Example Co", active := true } :=
  (C5_suggestion_is_first_suffix_match
      { customers := [{ id := 3, qbo_customer_id := "q3",
                        customer_name := "Example Co", active := true }],
        domains := [{ id := 1, domain_name := "mail.example.com",
                      customer_id := some 3, active := true }],
        exclusions := [], cos_mappings := [], usage_data := [],
        monthly_highwater := [], invoice_history := [] }
      "webmail.example.com").2.1
    { id := 3, qbo_customer_id := "q3", customer_name := "Example Co",
      active := true }
    (by decide)

/-! ## Facts about the store loop of `calculate_and_store_highwater` -/

/-- Overwriting count and flag does not change which keys a row matches. -/
theorem hwMatches_update (year month : Int) (did cid : Nat) (r : HWRow)
    (c : Int) (b : Bool) :
    hwMatches year month did cid { r with highwater_count := c, billable := b } =
      hwMatches year month did cid r := by
  cases r
  simp [hwMatches]

/-- Re-writing the first matching row with the values it already holds is a
no-op. -/
theorem upsertHWRow_self (year month : Int) (did cid : Nat) (c : Int) (b : Bool) :
    ∀ (L : List HWRow) (r : HWRow),
      L.find? (hwMatches year month did cid) = some r →
      r.highwater_count = c → r.billable = b →
      upsertHWRow year month did cid c b L = L := by
  intro L
  induction L with
  | nil => intro r h; simp at h
  | cons hd tl ih =>
    intro r hfind hc hb
    by_cases hm : hwMatches year month did cid hd = true
    · rw [List.find?_cons_of_pos _ hm] at hfind
      injection hfind with hr
      subst hr
      unfold upsertHWRow
      rw [if_pos hm]
      cases hd
      simp_all
    · rw [List.find?_cons_of_neg _ hm] at hfind
      unfold upsertHWRow
      rw [if_neg hm, ih r hfind hc hb]

/-- After an upsert, the first matching row holds exactly the written
values. -/
theorem upsertHWRow_establishes (year month : Int) (did cid : Nat) (c : Int)
    (b : Bool) :
    ∀ L : List HWRow,
      ∃ r, (upsertHWRow year month did cid c b L).find?
          (hwMatches year month did cid) = some r ∧
        r.highwater_count = c ∧ r.billable = b := by
  intro L
  induction L with
  | nil =>
    refine ⟨{ year := year, month := month, domain_id := did, cos_id := cid,
              highwater_count := c, billable := b }, ?_, rfl, rfl⟩
    unfold upsertHWRow
    rw [List.find?_cons_of_pos _ (by simp [hwMatches])]
  | cons hd tl ih =>
    by_cases hm : hwMatches year month did cid hd = true
    · refine ⟨{ hd with highwater_count := c, billable := b }, ?_, rfl, rfl⟩
      unfold upsertHWRow
      rw [if_pos hm, List.find?_cons_of_pos _ (by rw [hwMatches_update]; exact hm)]
    · obtain ⟨r, hfind, hc, hb⟩ := ih
      refine ⟨r, ?_, hc, hb⟩
      unfold upsertHWRow
      rw [if_neg hm, List.find?_cons_of_neg _ hm, hfind]

/-- An upsert for one `(domain_id, cos_id)` key neither moves nor changes the
first row of any other key, and leaves the other key's row count alone. -/
theorem upsertHWRow_frame (year month : Int) (did cid did' cid' : Nat) (c : Int)
    (b : Bool) (hne : (did', cid') ≠ (did, cid)) :
    ∀ L : List HWRow,
      (upsertHWRow year month did cid c b L).find? (hwMatches year month did' cid') =
        L.find? (hwMatches year month did' cid') ∧
      (upsertHWRow year month did cid c b L).countP (hwMatches year month did' cid') =
        L.countP (hwMatches year month did' cid') := by
  intro L
  induction L with
  | nil =>
    have hnew : hwMatches year month did' cid'
        { year := year, month := month, domain_id := did, cos_id := cid,
          highwater_count := c, billable := b } = false := by
      simp only [hwMatches, decide_eq_false_iff_not]
      rintro ⟨-, -, h1, h2⟩
      exact hne (by rw [← h1, ← h2])
    constructor
    · unfold upsertHWRow
      rw [List.find?_cons_of_neg _ (by simp [hnew])]
    · unfold upsertHWRow
      simp [List.countP_cons, hnew]
  | cons hd tl ih =>
    by_cases hm : hwMatches year month did cid hd = true
    · have hother : hwMatches year month did' cid' hd = false := by
        simp only [hwMatches, decide_eq_true_eq] at hm
        simp only [hwMatches, decide_eq_false_iff_not]
        rintro ⟨-, -, h1, h2⟩
        exact hne (by rw [← h1, ← h2, hm.2.2.1, hm.2.2.2])
      have hother2 : hwMatches year month did' cid'
          { hd with highwater_count := c, billable := b } = false := by
        rw [hwMatches_update]
        exact hother
      unfold upsertHWRow
      rw [if_pos hm]
      constructor
      · rw [List.find?_cons_of_neg _ (by simp [hother2]),
          List.find?_cons_of_neg _ (by simp [hother])]
      · rw [List.countP_cons, List.countP_cons, hother, hother2]
    · unfold upsertHWRow
      rw [if_neg hm]
      by_cases hx : hwMatches year month did' cid' hd = true
      · constructor
        · rw [List.find?_cons_of_pos _ hx, List.find?_cons_of_pos _ hx]
        · rw [List.countP_cons, List.countP_cons, ih.2]
      · constructor
        · rw [List.find?_cons_of_neg _ hx, List.find?_cons_of_neg _ hx, ih.1]
        · rw [List.countP_cons, List.countP_cons, ih.2]

/-- An upsert leaves exactly one matching row when there was none, and keeps
the matching-row count otherwise. -/
theorem upsertHWRow_countP (year month : Int) (did cid : Nat) (c : Int) (b : Bool) :
    ∀ L : List HWRow,
      (upsertHWRow year month did cid c b L).countP (hwMatches year month did cid) =
        if L.countP (hwMatches year month did cid) = 0 then 1
        else L.countP (hwMatches year month did cid) := by
  intro L
  induction L with
  | nil =>
    unfold upsertHWRow
    rw [List.countP_cons, List.countP_nil]
    simp [hwMatches]
  | cons hd tl ih =>
    by_cases hm : hwMatches year month did cid hd = true
    · have hm2 : hwMatches year month did cid
          { hd with highwater_count := c, billable := b } = true := by
        rw [hwMatches_update]
        exact hm
      unfold upsertHWRow
      rw [if_pos hm, List.countP_cons, List.countP_cons, hm, hm2]
      simp
    · unfold upsertHWRow
      rw [if_neg hm, List.countP_cons, List.countP_cons, ih]
      simp [hm]

/-- A successful store step is an upsert with the recomputed flag. -/
theorem storeStep_eq_some (matcher : GlobMatcher) (domains : List DomainRow)
    (cosm : List CoSRow) (excl : List ExclusionRow) (year month : Int)
    (L L' : List HWRow) (item : (Nat × Nat) × Int)
    (h : storeStep matcher domains cosm excl year month L item = some L') :
    ∃ b, billableFor matcher domains cosm excl item.1.1 item.1.2 = some b ∧
      L' = upsertHWRow year month item.1.1 item.1.2 item.2 b L := by
  unfold storeStep at h
  cases hb : billableFor matcher domains cosm excl item.1.1 item.1.2 with
  | none => rw [hb] at h; cases h
  | some b =>
    rw [hb] at h
    injection h with h
    exact ⟨b, rfl, h.symm⟩

/-- Folding store steps whose keys all differ from `(did', cid')` does not
change the first matching row or the row count of that key. -/
theorem foldStore_frame (matcher : GlobMatcher) (domains : List DomainRow)
    (cosm : List CoSRow) (excl : List ExclusionRow) (year month : Int)
    (did' cid' : Nat) :
    ∀ (items : List ((Nat × Nat) × Int)) (L L' : List HWRow),
      (∀ p ∈ items, p.1 ≠ (did', cid')) →
      items.foldlM (storeStep matcher domains cosm excl year month) L = some L' →
      L'.find? (hwMatches year month did' cid') =
        L.find? (hwMatches year month did' cid') ∧
      L'.countP (hwMatches year month did' cid') =
        L.countP (hwMatches year month did' cid') := by
  intro items
  induction items with
  | nil =>
    intro L L' _ hfold
    simp only [List.foldlM_nil] at hfold
    injection hfold with hfold
    subst hfold
    exact ⟨rfl, rfl⟩
  | cons item rest ih =>
    intro L L' hne hfold
    rw [List.foldlM_cons] at hfold
    cases hstep : storeStep matcher domains cosm excl year month L item with
    | none => rw [hstep] at hfold; cases hfold
    | some L₀ =>
      rw [hstep] at hfold
      simp only [Option.bind_eq_bind, Option.some_bind] at hfold
      obtain ⟨b, -, hL₀⟩ := storeStep_eq_some _ _ _ _ _ _ _ _ _ hstep
      have hkey : (did', cid') ≠ (item.1.1, item.1.2) := by
        have := hne item (List.mem_cons_self item rest)
        intro hcontra
        exact this (by rw [hcontra])
      have hframe := upsertHWRow_frame year month item.1.1 item.1.2 did' cid'
        item.2 b hkey L
      have hrest := ih L₀ L' (fun p hp => hne p (List.mem_cons_of_mem item hp)) hfold
      rw [hL₀] at hrest
      exact ⟨hrest.1.trans hframe.1, hrest.2.trans hframe.2⟩

/-- Main invariant of the store loop: running it a second time from its own
result is a no-op, and every processed key ends with exactly one row when it
started with none (otherwise with its original row count). -/
theorem foldStore_idempotent (matcher : GlobMatcher) (domains : List DomainRow)
    (cosm : List CoSRow) (excl : List ExclusionRow) (year month : Int) :
    ∀ (items : List ((Nat × Nat) × Int)) (L L' : List HWRow),
      (items.map Prod.fst).Nodup →
      items.foldlM (storeStep matcher domains cosm excl year month) L = some L' →
      items.foldlM (storeStep matcher domains cosm excl year month) L' = some L' ∧
      (∀ p ∈ items, L'.countP (hwMatches year month p.1.1 p.1.2) =
        if L.countP (hwMatches year month p.1.1 p.1.2) = 0 then 1
        else L.countP (hwMatches year month p.1.1 p.1.2)) := by
  intro items
  induction items with
  | nil =>
    intro L L' _ hfold
    simp only [List.foldlM_nil] at hfold
    injection hfold with hfold
    subst hfold
    exact ⟨rfl, by simp⟩
  | cons item rest ih =>
    intro L L' hnodup hfold
    rw [List.foldlM_cons] at hfold
    cases hstep : storeStep matcher domains cosm excl year month L item with
    | none => rw [hstep] at hfold; cases hfold
    | some L₀ =>
      rw [hstep] at hfold
      simp only [Option.bind_eq_bind, Option.some_bind] at hfold
      obtain ⟨b, hbill, hL₀⟩ := storeStep_eq_some _ _ _ _ _ _ _ _ _ hstep
      rw [List.map_cons, List.nodup_cons] at hnodup
      obtain ⟨hknotin, hrestnodup⟩ := hnodup
      obtain ⟨ihrun, ihcount⟩ := ih L₀ L' hrestnodup hfold
      have hrestne : ∀ p ∈ rest, p.1 ≠ (item.1.1, item.1.2) := by
        intro p hp hcontra
        refine hknotin ?_
        have h1 : p.1 = item.1 := by rw [hcontra]
        rw [← h1]
        exact List.mem_map_of_mem Prod.fst hp
      have hframe := foldStore_frame matcher domains cosm excl year month
        item.1.1 item.1.2 rest L₀ L' hrestne hfold
      obtain ⟨r, hfindL₀, hrc, hrb⟩ :=
        upsertHWRow_establishes year month item.1.1 item.1.2 item.2 b L
      rw [← hL₀] at hfindL₀
      have hfindL' : L'.find? (hwMatches year month item.1.1 item.1.2) = some r :=
        hframe.1.trans hfindL₀
      constructor
      · rw [List.foldlM_cons]
        have hstep' : storeStep matcher domains cosm excl year month L' item =
            some L' := by
          unfold storeStep
          rw [hbill]
          simp only [Option.map_some']
          rw [upsertHWRow_self year month item.1.1 item.1.2 item.2 b L' r
            hfindL' hrc hrb]
        rw [hstep']
        simpa using ihrun
      · intro p hp
        rcases List.mem_cons.mp hp with hpi | hpr
        · subst hpi
          rw [hframe.2, hL₀]
          exact upsertHWRow_countP year month p.1.1 p.1.2 p.2 b L
        · have hpne : (p.1.1, p.1.2) ≠ (item.1.1, item.1.2) := by
            have := hrestne p hpr
            simpa using this
          have hfr := upsertHWRow_frame year month item.1.1 item.1.2 p.1.1 p.1.2
            item.2 b hpne L
          rw [ihcount p hpr, hL₀, hfr.2]

/-- Keys of the grouping dictionary: an upsert keeps the key list, or appends
the new key at the end. -/
theorem hwUpsert_keys (k : Nat × Nat) (c : Int) :
    ∀ acc : List ((Nat × Nat) × Int),
      (hwUpsert k c acc).map Prod.fst =
        if k ∈ acc.map Prod.fst then acc.map Prod.fst
        else acc.map Prod.fst ++ [k] := by
  intro acc
  induction acc with
  | nil => simp [hwUpsert]
  | cons hd tl ih =>
    unfold hwUpsert
    by_cases hk : hd.1 = k
    · rw [if_pos hk]
      simp [hk]
    · rw [if_neg hk]
      simp only [List.map_cons, List.mem_cons]
      by_cases hmem : k ∈ tl.map Prod.fst
      · rw [if_pos (Or.inr hmem)]
        simp [ih, hmem]
      · rw [if_neg (by
          rintro (h | h)
          · exact hk h.symm
          · exact hmem h)]
        simp [ih, hmem]

/-- The grouping dictionary has pairwise-distinct keys (it is a dict). -/
theorem groupHW_keys_nodup (rows : List UsageRow) :
    ((groupHW rows).map Prod.fst).Nodup := by
  suffices h : ∀ (rows : List UsageRow) (acc : List ((Nat × Nat) × Int)),
      (acc.map Prod.fst).Nodup →
      (((rows.foldl (fun acc u =>
          hwUpsert (u.domain_id, u.cos_id) u.account_count acc) acc)).map
        Prod.fst).Nodup by
    exact h rows [] (by simp)
  intro rows
  induction rows with
  | nil => intro acc hacc; simpa using hacc
  | cons u rest ih =>
    intro acc hacc
    simp only [List.foldl_cons]
    refine ih _ ?_
    rw [hwUpsert_keys]
    by_cases hmem : (u.domain_id, u.cos_id) ∈ acc.map Prod.fst
    · rw [if_pos hmem]; exact hacc
    · rw [if_neg hmem]
      simp [List.nodup_append, hacc, hmem]

/-! ## Claim C7 -/

/-- C7: running `calculate_and_store_highwater` a second time for the same
`(year, month)` over the same stored usage data leaves the persisted
highwater state exactly as after the first run (counts and billable flags are
overwritten with the same recomputed values), and — when the store satisfies
the `unique_monthly_highwater` constraint (at most one row per key) — every
`(year, month, domain, service-class)` key of the period's usage ends with
exactly one row. -/
theorem C7_calculate_and_store_highwater_idempotent (matcher : GlobMatcher)
    (db : DB) (year month : Int) (db₁ : DB)
    (h : calculate_and_store_highwater matcher db year month = some db₁) :
    calculate_and_store_highwater matcher db₁ year month = some db₁ ∧
    ((∀ did cid : Nat,
        db.monthly_highwater.countP (hwMatches year month did cid) ≤ 1) →
      ∀ p ∈ groupHW (get_usage_for_month db.usage_data year month),
        db₁.monthly_highwater.countP (hwMatches year month p.1.1 p.1.2) = 1) := by
  unfold calculate_and_store_highwater at h
  rw [Option.map_eq_some'] at h
  obtain ⟨L₁, hfold, hdb₁⟩ := h
  obtain ⟨hrun2, hcount⟩ := foldStore_idempotent matcher db.domains db.cos_mappings
    db.exclusions year month (groupHW (get_usage_for_month db.usage_data year month))
    db.monthly_highwater L₁ (groupHW_keys_nodup _) hfold
  subst hdb₁
  constructor
  · unfold calculate_and_store_highwater
    dsimp only
    rw [hrun2]
    rfl
  · intro hwf p hp
    have hc := hcount p hp
    dsimp only
    rw [hc]
    by_cases h0 :
        db.monthly_highwater.countP (hwMatches year month p.1.1 p.1.2) = 0
    · rw [if_pos h0]
    · rw [if_neg h0]
      have := hwf p.1.1 p.1.2
      omega

/-- C7, witness: one usage row for May 2025 is aggregated and stored; the
second run returns the same store unchanged, holding exactly one row for the
key. -/
theorem C7_calculate_and_store_highwater_idempotent_witness :
    calculate_and_store_highwater (fun n p => n == p)
        { customers := [],
          domains := [{ id := 1, domain_name := "a.com", customer_id := none,
                        active := true }],
          exclusions := [],
          cos_mappings := [{ id := 2, cos_name := "cos-50gb", qbo_item_id := "I1",
                             qbo_item_name := "Item", unit_price := 5,
                             quota_gb := some 50, active := true }],
          usage_data := [{ report_date := { y := 2025, m := 5, d := 7 },
                           domain_id := 1, cos_id := 2, account_count := 10 }],
          monthly_highwater := [{ year := 2025, month := 5, domain_id := 1,
                                  cos_id := 2, highwater_count := 10,
                                  billable := true }],
          invoice_history := [] } 2025 5 =
      some
        { customers := [],
          domains := [{ id := 1, domain_name := "a.com", customer_id := none,
                        active := true }],
          exclusions := [],
          cos_mappings := [{ id := 2, cos_name := "cos-50gb", qbo_item_id := "I1",
                             qbo_item_name := "Item", unit_price := 5,
                             quota_gb := some 50, active := true }],
          usage_data := [{ report_date := { y := 2025, m := 5, d := 7 },
                           domain_id := 1, cos_id := 2, account_count := 10 }],
          monthly_highwater := [{ year := 2025, month := 5, domain_id := 1,
                                  cos_id := 2, highwater_count := 10,
                                  billable := true }],
          invoice_history := [] } ∧
    (List.countP (hwMatches 2025 5 1 2)
      [{ year := 2025, month := 5, domain_id := 1, cos_id := 2,
         highwater_count := 10, billable := true : HWRow }]) = 1 := by
  have h := C7_calculate_and_store_highwater_idempotent (fun n p => n == p)
    { customers := [],
      domains := [{ id := 1, domain_name := "a.com", customer_id := none,
                    active := true }],
      exclusions := [],
      cos_mappings := [{ id := 2, cos_name := "cos-50gb", qbo_item_id := "I1",
                         qbo_item_name := "Item", unit_price := 5,
                         quota_gb := some 50, active := true }],
      usage_data := [{ report_date := { y := 2025, m := 5, d := 7 },
                       domain_id := 1, cos_id := 2, account_count := 10 }],
      monthly_highwater := [], invoice_history := [] } 2025 5
    { customers := [],
      domains := [{ id := 1, domain_name := "a.com", customer_id := none,
                    active := true }],
      exclusions := [],
      cos_mappings := [{ id := 2, cos_name := "cos-50gb", qbo_item_id := "I1",
                         qbo_item_name := "Item", unit_price := 5,
                         quota_gb := some 50, active := true }],
      usage_data := [{ report_date := { y := 2025, m := 5, d := 7 },
                       domain_id := 1, cos_id := 2, account_count := 10 }],
      monthly_highwater := [{ year := 2025, month := 5, domain_id := 1,
                              cos_id := 2, highwater_count := 10,
                              billable := true }],
      invoice_history := [] } (by decide)
  exact ⟨h.1, h.2 (fun did cid => by simp) ((1, 2), 10) (by decide)⟩

/-! ## Claim C1 -/

/-- C1: the idempotency mechanism the claim describes is dead code in the
staged program.  Both the duplicate check of
`generate_invoice_for_customer` and the insert of `_record_invoice_history`
reference an `idempotency_key` column, and that column is exactly the one
constructor argument absent from the columns the `InvoiceHistory` model
declares: the class-attribute access at `invoice.py:70` therefore fails on
every invocation, before an invoice id can be returned or recorded, so the
claimed idempotent second invocation is unreachable. -/
theorem C1_idempotency_key_column_missing :
    duplicateCheckColumn ∉ invoiceHistoryColumns ∧
    recordInvoiceHistoryKwargs.filter
        (fun kw => !invoiceHistoryColumns.contains kw) = [duplicateCheckColumn] := by
  decide

/-! ## Facts about the aggregator's dictionary -/

/-- Looking up the key just upserted yields the updated (or freshly
defaulted) entry. -/
theorem lookupEntry_upsert_same (k : String × String) (f : HWEntry → HWEntry) :
    ∀ m : List ((String × String) × HWEntry),
      lookupEntry (upsertEntry k f m) k = some (f ((lookupEntry m k).getD emptyEntry)) := by
  intro m
  induction m with
  | nil =>
    unfold upsertEntry lookupEntry
    rw [List.find?_cons_of_pos _ (by simp)]
    rfl
  | cons hd tl ih =>
    by_cases hk : hd.1 = k
    · unfold upsertEntry lookupEntry
      rw [if_pos hk]
      rw [List.find?_cons_of_pos _ (by simpa using hk),
        List.find?_cons_of_pos _ (by simpa using hk)]
      rfl
    · unfold upsertEntry lookupEntry
      rw [if_neg hk]
      rw [List.find?_cons_of_neg _ (by simpa using hk),
        List.find?_cons_of_neg _ (by simpa using hk)]
      exact ih

/-- Upserting a different key does not change a lookup. -/
theorem lookupEntry_upsert_ne (k' k : String × String) (f : HWEntry → HWEntry)
    (hne : k' ≠ k) :
    ∀ m : List ((String × String) × HWEntry),
      lookupEntry (upsertEntry k' f m) k = lookupEntry m k := by
  intro m
  induction m with
  | nil =>
    unfold upsertEntry lookupEntry
    rw [List.find?_cons_of_neg _ (by simpa using hne)]
  | cons hd tl ih =>
    by_cases hk : hd.1 = k'
    · unfold upsertEntry lookupEntry
      rw [if_pos hk]
      by_cases hx : hd.1 = k
      · exact absurd (hx ▸ hk.symm) hne
      · rw [List.find?_cons_of_neg _ (by simpa using hx),
          List.find?_cons_of_neg _ (by simpa using hx)]
    · unfold upsertEntry lookupEntry
      rw [if_neg hk]
      by_cases hx : hd.1 = k
      · rw [List.find?_cons_of_pos _ (by simpa using hx),
          List.find?_cons_of_pos _ (by simpa using hx)]
      · rw [List.find?_cons_of_neg _ (by simpa using hx),
          List.find?_cons_of_neg _ (by simpa using hx)]
        exact ih

/-- Effect of one record's inner `cos_usage` loop on the lookup of one key. -/
theorem lookupEntry_foldCos (d : String) (rd : Option Nat) (k : String × String) :
    ∀ (cos : List (String × Int)) (acc : List ((String × String) × HWEntry)),
      lookupEntry (cos.foldl
          (fun acc p => upsertEntry (d, p.1) (applyEvent rd p.2) acc) acc) k =
        if cosEvents d rd cos k = [] then lookupEntry acc k
        else some (applyEvents ((lookupEntry acc k).getD emptyEntry)
          (cosEvents d rd cos k)) := by
  intro cos
  induction cos with
  | nil => intro acc; simp [cosEvents]
  | cons p rest ih =>
    intro acc
    rw [List.foldl_cons]
    by_cases hd1 : d = k.1
    · by_cases hp : p.1 = k.2
      · have hk : (d, p.1) = k := by
          rw [hd1, hp]
        have hev : cosEvents d rd (p :: rest) k =
            (p.2, rd) :: cosEvents d rd rest k := by
          unfold cosEvents
          rw [if_pos hd1, if_pos hd1, List.filter_cons_of_pos (by simpa using hp)]
          rfl
        rw [ih, hev, hk, lookupEntry_upsert_same]
        by_cases hrest : cosEvents d rd rest k = []
        · rw [if_pos hrest, if_neg (by simp), hrest]
          rfl
        · rw [if_neg hrest, if_neg (by simp)]
          cases hacc : lookupEntry acc k <;> rfl
      · have hk : (d, p.1) ≠ k := by
          intro hcontra
          exact hp (congrArg Prod.snd hcontra)
        have hev : cosEvents d rd (p :: rest) k = cosEvents d rd rest k := by
          unfold cosEvents
          rw [if_pos hd1, if_pos hd1, List.filter_cons_of_neg (by simpa using hp)]
        rw [ih, hev, lookupEntry_upsert_ne _ _ _ hk]
    · have hk : (d, p.1) ≠ k := by
        intro hcontra
        exact hd1 (congrArg Prod.fst hcontra)
      have hev : cosEvents d rd (p :: rest) k = cosEvents d rd rest k := by
        unfold cosEvents
        rw [if_neg hd1, if_neg hd1]
      rw [ih, hev, lookupEntry_upsert_ne _ _ _ hk]

/-- Effect of one record on the lookup of one key. -/
theorem lookupEntry_processReport (r : UsageRecord) (k : String × String)
    (acc : List ((String × String) × HWEntry)) :
    lookupEntry (processReport acc r) k =
      if reportEvents k r = [] then lookupEntry acc k
      else some (applyEvents ((lookupEntry acc k).getD emptyEntry)
        (reportEvents k r)) := by
  unfold processReport reportEvents
  cases hdom : r.domain with
  | none => simp
  | some d =>
    dsimp only
    by_cases hempty : d = ""
    · rw [if_pos hempty, if_pos hempty]
      simp
    · rw [if_neg hempty, if_neg hempty]
      exact lookupEntry_foldCos d r.report_date k r.cos_usage acc

/-- Effect of the whole report list on the lookup of one key. -/
theorem lookupEntry_foldReports (k : String × String) :
    ∀ (l : List UsageRecord) (acc : List ((String × String) × HWEntry)),
      lookupEntry (l.foldl processReport acc) k =
        if keyEvents k l = [] then lookupEntry acc k
        else some (applyEvents ((lookupEntry acc k).getD emptyEntry)
          (keyEvents k l)) := by
  intro l
  induction l with
  | nil => intro acc; simp [keyEvents]
  | cons r rest ih =>
    intro acc
    have hev : keyEvents k (r :: rest) = reportEvents k r ++ keyEvents k rest := by
      unfold keyEvents
      rw [List.flatMap_cons]
    rw [List.foldl_cons, ih, hev, lookupEntry_processReport]
    by_cases hA : reportEvents k r = []
    · rw [if_pos hA, hA, List.nil_append]
    · by_cases hB : keyEvents k rest = []
      · rw [if_neg hA, hB, List.append_nil, if_pos rfl,
          if_neg (by simp [hA])]
      · rw [if_neg hA, if_neg hB, if_neg (by simp [hA])]
        unfold applyEvents
        rw [List.foldl_append]
        rfl

/-- The calculator's entry for a key is the fold of that key's update
stream over the default entry (and the key is present exactly when the
stream is non-empty). -/
theorem lookupEntry_calc (l : List UsageRecord) (k : String × String) :
    lookupEntry (calculate_monthly_highwater l) k =
      if keyEvents k l = [] then none
      else some (applyEvents emptyEntry (keyEvents k l)) := by
  unfold calculate_monthly_highwater
  rw [lookupEntry_foldReports]
  rfl

/-- One update raises the count to the maximum of old count and new value. -/
theorem applyEvent_count (rd : Option Nat) (n : Int) (e : HWEntry) :
    (applyEvent rd n e).count = max e.count n := by
  unfold applyEvent
  dsimp only
  split
  · simp only
    omega
  · simp only
    omega

/-- The count after a stream of updates is the running maximum of the
starting count and all update values. -/
theorem applyEvents_count : ∀ (evs : List (Int × Option Nat)) (e : HWEntry),
    (applyEvents e evs).count = (evs.map Prod.fst).foldl max e.count := by
  intro evs
  induction evs with
  | nil => intro e; rfl
  | cons ev rest ih =>
    intro e
    unfold applyEvents at ih ⊢
    rw [List.foldl_cons, List.map_cons, List.foldl_cons, ih]
    congr 1
    exact applyEvent_count ev.2 ev.1 e

/-- The starting value is a lower bound of a `foldl max`. -/
theorem le_foldl_max : ∀ (l : List Int) (a : Int), a ≤ l.foldl max a := by
  intro l
  induction l with
  | nil => intro a; exact le_refl a
  | cons x t ih =>
    intro a
    rw [List.foldl_cons]
    exact le_trans (le_max_left a x) (ih (max a x))

/-- Peak-date behaviour of a stream of updates: if no update exceeds the
starting count, the peak entry (and the count) are untouched; otherwise the
final peak is the date of the first update reaching the overall maximum. -/
theorem applyEvents_peak : ∀ (evs : List (Int × Option Nat)) (e : HWEntry) (M : Int),
    (evs.map Prod.fst).foldl max e.count = M →
    (M ≤ e.count →
      (applyEvents e evs).peak_date = e.peak_date ∧ (applyEvents e evs).count = e.count) ∧
    (e.count < M →
      (applyEvents e evs).peak_date = (evs.find? (fun ev => M ≤ ev.1)).map (·.2)) := by
  intro evs
  induction evs with
  | nil =>
    intro e M hM
    simp only [List.map_nil, List.foldl_nil] at hM
    subst hM
    constructor
    · intro _
      exact ⟨rfl, rfl⟩
    · intro hlt
      exact absurd hlt (lt_irrefl _)
  | cons ev rest ih =>
    intro e M hM
    rw [List.map_cons, List.foldl_cons] at hM
    have hMge : max e.count ev.1 ≤ M := hM ▸ le_foldl_max _ _
    have hstep : applyEvents e (ev :: rest) =
        applyEvents (applyEvent ev.2 ev.1 e) rest := rfl
    have hcnt : (applyEvent ev.2 ev.1 e).count = max e.count ev.1 :=
      applyEvent_count ev.2 ev.1 e
    have ihspec := ih (applyEvent ev.2 ev.1 e) M (by rw [hcnt]; exact hM)
    constructor
    · intro hle
      have hev1 : ev.1 ≤ e.count := le_trans (le_trans (le_max_right _ _) hMge) hle
      have hnoupd : applyEvent ev.2 ev.1 e =
          { e with dates := e.dates ++ [ev.2] } := by
        unfold applyEvent
        dsimp only
        rw [if_neg (by omega)]
      have hle' : M ≤ (applyEvent ev.2 ev.1 e).count := by
        rw [hcnt]
        omega
      obtain ⟨hpk, hct⟩ := ihspec.1 hle'
      rw [hstep]
      constructor
      · rw [hpk, hnoupd]
      · rw [hct, hcnt]
        omega
    · intro hlt
      rw [hstep]
      by_cases hup : ev.1 > e.count
      · have hupd : applyEvent ev.2 ev.1 e =
            { count := ev.1, dates := e.dates ++ [ev.2], peak_date := some ev.2 } := by
          unfold applyEvent
          dsimp only
          rw [if_pos (by omega)]
        by_cases hMev : M ≤ ev.1
        · have hle' : M ≤ (applyEvent ev.2 ev.1 e).count := by
            rw [hcnt]
            omega
          obtain ⟨hpk, -⟩ := ihspec.1 hle'
          rw [hpk, hupd]
          rw [List.find?_cons_of_pos _ (by simpa using hMev)]
          rfl
        · push_neg at hMev
          have hlt' : (applyEvent ev.2 ev.1 e).count < M := by
            rw [hcnt]
            omega
          rw [ihspec.2 hlt']
          rw [List.find?_cons_of_neg _ (by simpa using hMev)]
      · push_neg at hup
        have hlt' : (applyEvent ev.2 ev.1 e).count < M := by
          rw [hcnt]
          omega
        rw [ihspec.2 hlt']
        have hMev : ¬ M ≤ ev.1 := by
          have : ev.1 ≤ e.count := hup
          omega
        rw [List.find?_cons_of_neg _ (by simpa using hMev)]

/-- Permuting the folded list does not change a `foldl max`. -/
theorem foldl_max_perm {l l' : List Int} (p : l.Perm l') :
    ∀ a : Int, l.foldl max a = l'.foldl max a := by
  induction p with
  | nil => intro a; rfl
  | cons x _ ih =>
    intro a
    rw [List.foldl_cons, List.foldl_cons, ih]
  | swap x y t =>
    intro a
    rw [List.foldl_cons, List.foldl_cons, List.foldl_cons, List.foldl_cons,
      sup_right_comm]
  | trans _ _ ih1 ih2 =>
    intro a
    rw [ih1, ih2]

/-- The update streams of a key under permuted inputs are permutations of
each other. -/
theorem keyEvents_perm (k : String × String) {l l' : List UsageRecord}
    (p : l.Perm l') : (keyEvents k l).Perm (keyEvents k l') := by
  unfold keyEvents
  exact p.flatMap_right (reportEvents k)

/-! ## Claim C2 -/

/-- C2, counterexample: (a) a parsed count can be negative (`int(...)` in the
parser accepts it), and the dictionary's zero-initialised running maximum
then reports 0 instead of the true maximum −1; (b) the full returned mapping
is **not** permutation-invariant: swapping two records with equal counts
changes the `dates` order and the `peak_date`. -/
theorem C2_counterexample_zero_floor_and_order :
    (lookupEntry (calculate_monthly_highwater
        [{ domain := some "a.com", cos_usage := [("s", -1)], report_date := some 1 }])
      ("a.com", "s")).map (·.count) = some 0 ∧
    (observedCounts ("a.com", "s")
        [{ domain := some "a.com", cos_usage := [("s", -1)], report_date := some 1 }]).max? =
      some (-1) ∧
    ([{ domain := some "a.com", cos_usage := [("s", 5)], report_date := some 1 },
      { domain := some "a.com", cos_usage := [("s", 5)], report_date := some 2 }] :
        List UsageRecord).Perm
      [{ domain := some "a.com", cos_usage := [("s", 5)], report_date := some 2 },
       { domain := some "a.com", cos_usage := [("s", 5)], report_date := some 1 }] ∧
    calculate_monthly_highwater
        [{ domain := some "a.com", cos_usage := [("s", 5)], report_date := some 1 },
         { domain := some "a.com", cos_usage := [("s", 5)], report_date := some 2 }] ≠
      calculate_monthly_highwater
        [{ domain := some "a.com", cos_usage := [("s", 5)], report_date := some 2 },
         { domain := some "a.com", cos_usage := [("s", 5)], report_date := some 1 }] :=
  ⟨by decide, by decide, List.Perm.swap _ _ _, by decide⟩

/-- C2, amended: for every key occurring in the input, the calculator's count
is the maximum of 0 and all counts observed for that key — hence the true
maximum whenever the observed counts are non-negative (as all counts of
valid parsed data are) — and the **count view** of the result is invariant
under permutation of the input (the `dates`/`peak_date` components need not
be). -/
theorem C2_count_is_max_and_order_invariant :
    (∀ (l : List UsageRecord) (k : String × String) (e : HWEntry),
      lookupEntry (calculate_monthly_highwater l) k = some e →
      e.count = (observedCounts k l).foldl max 0 ∧
      (observedCounts k l ≠ [] → (∀ c ∈ observedCounts k l, 0 ≤ c) →
        (observedCounts k l).max? = some e.count)) ∧
    (∀ (l l' : List UsageRecord), l.Perm l' → ∀ k : String × String,
      (lookupEntry (calculate_monthly_highwater l) k).map (·.count) =
        (lookupEntry (calculate_monthly_highwater l') k).map (·.count)) := by
  constructor
  · intro l k e h
    rw [lookupEntry_calc] at h
    by_cases hev : keyEvents k l = []
    · rw [if_pos hev] at h; cases h
    · rw [if_neg hev] at h
      injection h with he
      have hcount : e.count = (observedCounts k l).foldl max 0 := by
        rw [← he, applyEvents_count]
        rfl
      refine ⟨hcount, ?_⟩
      intro hne hpos
      cases hoc : observedCounts k l with
      | nil => exact absurd hoc hne
      | cons c cs =>
        have hc0 : 0 ≤ c := hpos c (hoc ▸ List.mem_cons_self c cs)
        rw [hoc, List.foldl_cons, max_eq_right hc0] at hcount
        rw [hcount]
        rfl
  · intro l l' p k
    rw [lookupEntry_calc, lookupEntry_calc]
    have hperm := keyEvents_perm k p
    by_cases hev : keyEvents k l = []
    · have hev' : keyEvents k l' = [] := by
        have hlen := hperm.length_eq
        rw [hev] at hlen
        exact List.length_eq_zero.mp hlen.symm
      rw [if_pos hev, if_pos hev']
    · have hev' : keyEvents k l' ≠ [] := by
        intro hc
        apply hev
        have hlen := hperm.length_eq
        rw [hc] at hlen
        exact List.length_eq_zero.mp hlen
      rw [if_neg hev, if_neg hev']
      refine congrArg some ?_
      show (applyEvents emptyEntry (keyEvents k l)).count =
        (applyEvents emptyEntry (keyEvents k l')).count
      rw [applyEvents_count, applyEvents_count]
      exact foldl_max_perm (hperm.map Prod.fst) emptyEntry.count

/-- C2, witness: two records for one key with counts 5 and 7 give count 7 =
the maximum, and the count view agrees between the two orders. -/
theorem C2_count_is_max_and_order_invariant_witness :
    (({ count := 7, dates := [some 1, some 2], peak_date := some (some 2) } :
        HWEntry)).count =
      (observedCounts ("a.com", "s")
        [{ domain := some "a.com", cos_usage := [("s", 5)], report_date := some 1 },
         { domain := some "a.com", cos_usage := [("s", 7)], report_date := some 2 }]).foldl
        max 0 ∧
    (lookupEntry (calculate_monthly_highwater
        [{ domain := some "a.com", cos_usage := [("s", 5)], report_date := some 1 },
         { domain := some "a.com", cos_usage := [("s", 7)], report_date := some 2 }])
      ("a.com", "s")).map (·.count) =
    (lookupEntry (calculate_monthly_highwater
        [{ domain := some "a.com", cos_usage := [("s", 7)], report_date := some 2 },
         { domain := some "a.com", cos_usage := [("s", 5)], report_date := some 1 }])
      ("a.com", "s")).map (·.count) :=
  ⟨(C2_count_is_max_and_order_invariant.1
      [{ domain := some "a.com", cos_usage := [("s", 5)], report_date := some 1 },
       { domain := some "a.com", cos_usage := [("s", 7)], report_date := some 2 }]
      ("a.com", "s")
      { count := 7, dates := [some 1, some 2], peak_date := some (some 2) }
      (by decide)).1,
   C2_count_is_max_and_order_invariant.2
      [{ domain := some "a.com", cos_usage := [("s", 5)], report_date := some 1 },
       { domain := some "a.com", cos_usage := [("s", 7)], report_date := some 2 }]
      [{ domain := some "a.com", cos_usage := [("s", 7)], report_date := some 2 },
       { domain := some "a.com", cos_usage := [("s", 5)], report_date := some 1 }]
      (List.Perm.swap _ _ _) ("a.com", "s")⟩

/-! ## Claim C8 -/

/-- C8, counterexample: a group whose only observed count is 0 appears in the
output (its `dates` list is populated) but carries **no** `peak_date` — the
update only fires on a strictly positive running increase — even though the
earliest record achieving the group maximum (0, at date 1) exists. -/
theorem C8_counterexample_zero_group_has_no_peak :
    calculate_monthly_highwater
        [{ domain := some "a.com", cos_usage := [("s", 0)], report_date := some 1 }] =
      [(("a.com", "s"), { count := 0, dates := [some 1], peak_date := none })] ∧
    (observedCounts ("a.com", "s")
        [{ domain := some "a.com", cos_usage := [("s", 0)], report_date := some 1 }]).max? =
      some 0 :=
  ⟨by decide, by decide⟩

/-- C8, amended: for every key in the output whose maximum observed count is
**positive**, the recorded peak date is the report date of the earliest input
update reaching that maximum (ties toward the first seen); groups whose
maximum is not positive (all counts ≤ 0) carry no peak date at all. -/
theorem C8_peak_is_first_record_reaching_max (l : List UsageRecord)
    (k : String × String) (e : HWEntry)
    (h : lookupEntry (calculate_monthly_highwater l) k = some e) :
    (0 < (observedCounts k l).foldl max 0 →
      e.peak_date = ((keyEvents k l).find?
        (fun ev => (observedCounts k l).foldl max 0 ≤ ev.1)).map (·.2)) ∧
    ((observedCounts k l).foldl max 0 ≤ 0 → e.peak_date = none) := by
  rw [lookupEntry_calc] at h
  by_cases hev : keyEvents k l = []
  · rw [if_pos hev] at h; cases h
  · rw [if_neg hev] at h
    injection h with he
    have hspec := applyEvents_peak (keyEvents k l) emptyEntry
      ((observedCounts k l).foldl max 0) rfl
    constructor
    · intro hpos
      rw [← he]
      exact hspec.2 hpos
    · intro hle
      rw [← he]
      exact (hspec.1 hle).1

/-- C8, witness: with counts 5 then 7, the recorded peak is the date of the
(first and only) update reaching the maximum 7. -/
theorem C8_peak_is_first_record_reaching_max_witness :
    (({ count := 7, dates := [some 1, some 2], peak_date := some (some 2) } :
        HWEntry)).peak_date =
      ((keyEvents ("a.com", "s")
          [{ domain := some "a.com", cos_usage := [("s", 5)], report_date := some 1 },
           { domain := some "a.com", cos_usage := [("s", 7)], report_date := some 2 }]).find?
        (fun ev => (observedCounts ("a.com", "s")
          [{ domain := some "a.com", cos_usage := [("s", 5)], report_date := some 1 },
           { domain := some "a.com", cos_usage := [("s", 7)], report_date := some 2 }]).foldl
            max 0 ≤ ev.1)).map (·.2) :=
  (C8_peak_is_first_record_reaching_max
      [{ domain := some "a.com", cos_usage := [("s", 5)], report_date := some 1 },
       { domain := some "a.com", cos_usage := [("s", 7)], report_date := some 2 }]
      ("a.com", "s")
      { count := 7, dates := [some 1, some 2], peak_date := some (some 2) }
      (by decide)).1 (by decide)

end ZQB
